import Mathlib

/-!
Verification development for the garage-door monitor firmware
(`src/unnamed/part_001`).  The firmware is a single cooperative loop:
a debounced input tracker, a dirty-flag publish scheduler, and a
Wi-Fi/MQTT connectivity window.  We embed the loop shallowly: each
C function becomes a Lean function on an explicit state record, and the
environment (clock readings, pin level, success of connection attempts,
asynchronous link/session loss) is supplied as a per-tick `Input` oracle.
Times are `Nat`s carrying the 32-bit `millis()` readings; all arithmetic
the firmware performs on them is done modulo `2 ^ 32`, exactly as
`unsigned long` arithmetic does on the ESP8266.
-/

set_option autoImplicit false

namespace Garage

/-- `2 ^ 32`, the modulus of the ESP8266's `unsigned long` arithmetic. -/
def U32 : Nat := 4294967296

/-- `2 ^ 31`: an unsigned 32-bit value below this bound is nonnegative
when reinterpreted as a signed `long`. -/
def I32 : Nat := 2147483648

/-- 32-bit wrapping subtraction `a - b`, as computed on `unsigned long`. -/
def sub32 (a b : Nat) : Nat := (a % U32 + (U32 - b % U32)) % U32

/-- The window-expiry test `(long)(millis() - windowDeadline) >= 0` from
`loop`: the wrapping difference, reinterpreted as signed, is nonnegative. -/
def expired32 (n d : Nat) : Bool := sub32 n d < I32

/-- `DEBOUNCE_MS` from the source. -/
def DEBOUNCE_MS : Nat := 80

/-- `WINDOW_MS` from the source: ten minutes. -/
def WINDOW_MS : Nat := 600000

/-- `ACTIVE_LOW` from the source. -/
def ACTIVE_LOW : Bool := true

/-- `PUBLISH_ON_BOOT` from the source. -/
def PUBLISH_ON_BOOT : Bool := true

/-- `TOPIC_STATUS` from the source. -/
def TOPIC_STATUS : String := "garage/door"

/-- `TOPIC_ONLINE` from the source. -/
def TOPIC_ONLINE : String := "garage/door/online"

/-- `readLogical`: maps the sampled pin level (`pinLow` is `v == LOW`,
i.e. the switch is active) to the logical "open" boolean via the
configured polarity. -/
def readLogical (pinLow : Bool) : Bool :=
  if ACTIVE_LOW then !pinLow else pinLow

/-- `statusString`: the published payload for a logical state. -/
def statusString (logicalOpen : Bool) : String :=
  if logicalOpen then "open" else "closed"

/-- The firmware's mutable globals, plus the connectivity state of the
radio/broker pair (`wifiConn` is `WiFi.status() == WL_CONNECTED`,
`mqttConn` is `mqtt.connected()`), plus one ghost history field
`lastPub` recording the payload of the most recent successful status
publish (not present in the source; used only to state invariants). -/
structure St where
  lastStable : Bool
  lastRead : Bool
  lastBounceAt : Nat
  dirty : Bool
  windowDeadline : Nat
  wifiConn : Bool
  mqttConn : Bool
  lastPub : Option String
deriving Repr, DecidableEq

/-- The environment oracle for one tick: the `millis()` reading, the pin
level, whether a Wi-Fi link attempt / broker handshake / transport send
would succeed this tick, and whether the link or the broker session was
lost asynchronously since the previous tick. -/
structure Input where
  now : Nat
  pinLow : Bool
  wifiOk : Bool
  mqttOk : Bool
  pubOk : Bool
  wifiDrop : Bool
  mqttDrop : Bool
deriving Repr, DecidableEq

/-- Observable events of one tick (or of `setup`): which connection and
publish actions were attempted and with what outcome.  `will` and
`birth` carry (topic, payload, retained) triples; `statusAttempt`
likewise records the retained status publish handed to the transport. -/
structure Ev where
  schedActive : Bool := false
  wifiAttempt : Bool := false
  wifiFailed : Bool := false
  mqttAttempt : Bool := false
  mqttFailed : Bool := false
  will : Option (String × String × Bool) := none
  birth : Option (String × String × Bool) := none
  statusAttempt : Option (String × String × Bool) := none
  statusOk : Bool := false
  teardown : Bool := false
  reconnectAttempt : Bool := false
deriving Repr, DecidableEq

/-- The empty event record. -/
def evNone : Ev := {}

/-- `wifiRadioSleep`: drops the broker session and powers the radio
down.  The source's `WiFi.persistent`, `WiFi.mode`, `forceSleepBegin`
calls all serve to reach the radio-off state, which the model captures
as both connectivity flags false. -/
def wifiRadioSleep (s : St) : St :=
  { s with mqttConn := false, wifiConn := false }

/-- `mqttConnect`: registers the last-will (`TOPIC_ONLINE`, `"false"`,
retained) at connect time; on success marks the session live and
publishes the retained `"true"` birth message on `TOPIC_ONLINE`.
Whether the broker accepts the handshake is the oracle bit `ok`.
Client-id construction and `setServer` have no modelled effect. -/
def mqttConnect (s : St) (ok : Bool) : St × Ev :=
  if ok then
    ({ s with mqttConn := true },
     { mqttAttempt := true, will := some (TOPIC_ONLINE, "false", true),
       birth := some (TOPIC_ONLINE, "true", true) })
  else
    (s, { mqttAttempt := true, mqttFailed := true,
          will := some (TOPIC_ONLINE, "false", true) })

/-- `publishStatus`: hands `statusString logicalOpen` (retained) to the
transport; on success extends the window to `now + WINDOW_MS` (32-bit)
and clears `dirty`.  The ghost `lastPub` records the sent payload.
`n` is the `millis()` reading, `ok` the transport outcome. -/
def publishStatus (s : St) (logicalOpen : Bool) (n : Nat) (ok : Bool) :
    St × Bool :=
  if ok then
    ({ s with windowDeadline := (n + WINDOW_MS) % U32, dirty := false,
              lastPub := some (statusString logicalOpen) }, true)
  else (s, false)

/-- `ensureMqttAndPublishIfDirty`: if `dirty`, ensure Wi-Fi (bounded
attempt, oracle `i.wifiOk`), then ensure the broker session (oracle
`i.mqttOk`), then publish the current `lastStable`; stop at the first
failure, leaving `dirty` set.  Serial prints are not modelled. -/
def ensureMqttAndPublishIfDirty (s : St) (i : Input) : St × Ev :=
  if s.dirty then
    if s.wifiConn || i.wifiOk then
      let wa := !s.wifiConn
      let s1 := { s with wifiConn := true }
      if s1.mqttConn then
        let p := publishStatus s1 s1.lastStable (i.now % U32) i.pubOk
        (p.1, { schedActive := true, wifiAttempt := wa,
                statusAttempt := some (TOPIC_STATUS, statusString s1.lastStable, true),
                statusOk := p.2 })
      else
        let m := mqttConnect s1 i.mqttOk
        if i.mqttOk then
          let p := publishStatus m.1 m.1.lastStable (i.now % U32) i.pubOk
          (p.1, { schedActive := true, wifiAttempt := wa, mqttAttempt := true,
                  will := m.2.will, birth := m.2.birth,
                  statusAttempt := some (TOPIC_STATUS, statusString m.1.lastStable, true),
                  statusOk := p.2 })
        else
          (m.1, { schedActive := true, wifiAttempt := wa, mqttAttempt := true,
                  mqttFailed := true, will := m.2.will })
    else
      (s, { schedActive := true, wifiAttempt := true, wifiFailed := true })
  else (s, evNone)

/-- Step 3 of `loop`: if the session is live, pump it and tear down the
radio once the window has expired with nothing pending; otherwise
attempt the cheap broker-session-only reconnect, but only while the
link is up and a started window (`windowDeadline != 0`) has not passed
(`millis() <= windowDeadline`).  `mqtt.loop()` has no modelled state
effect. -/
def maintainWindow (s : St) (i : Input) : St × Ev :=
  if s.mqttConn then
    if s.dirty = false ∧ expired32 (i.now % U32) s.windowDeadline = true then
      (wifiRadioSleep s, { teardown := true })
    else (s, evNone)
  else
    if s.wifiConn = true ∧ s.windowDeadline ≠ 0 ∧ i.now % U32 ≤ s.windowDeadline then
      let m := mqttConnect s i.mqttOk
      (m.1, { reconnectAttempt := true, will := m.2.will, birth := m.2.birth })
    else (s, evNone)

/-- Asynchronous loss of the link or the broker session between ticks,
detected by the status polls at the start of the next tick. -/
def applyDrops (s : St) (i : Input) : St :=
  { s with wifiConn := s.wifiConn && !i.wifiDrop,
           mqttConn := s.mqttConn && !i.mqttDrop }

/-- Step 1 of `loop`: the debounce latch.  A raw change restarts the
quiet-period timer; a raw level that has held for `DEBOUNCE_MS` and
differs from the stable state is committed and marks `dirty`.
`n` is the `millis()` reading. -/
def debounce (s : St) (n : Nat) (pinLow : Bool) : St :=
  let r := readLogical pinLow
  let s1 := if r = s.lastRead then s else { s with lastRead := r, lastBounceAt := n }
  if DEBOUNCE_MS ≤ sub32 n s1.lastBounceAt ∧ s1.lastStable ≠ s1.lastRead then
    { s1 with lastStable := s1.lastRead, dirty := true }
  else s1

/-- Merge the events of the two phases of a tick. -/
def mergeEv (a b : Ev) : Ev :=
  { schedActive := a.schedActive || b.schedActive,
    wifiAttempt := a.wifiAttempt || b.wifiAttempt,
    wifiFailed := a.wifiFailed || b.wifiFailed,
    mqttAttempt := a.mqttAttempt || b.mqttAttempt,
    mqttFailed := a.mqttFailed || b.mqttFailed,
    will := a.will.orElse (fun _ => b.will),
    birth := a.birth.orElse (fun _ => b.birth),
    statusAttempt := a.statusAttempt.orElse (fun _ => b.statusAttempt),
    statusOk := a.statusOk || b.statusOk,
    teardown := a.teardown || b.teardown,
    reconnectAttempt := a.reconnectAttempt || b.reconnectAttempt }

/-- The state reached after the debounce and publish phases of a tick
(steps 1 and 2 of `loop`), together with their events. -/
def tickMid (s : St) (i : Input) : St × Ev :=
  ensureMqttAndPublishIfDirty (debounce (applyDrops s i) (i.now % U32) i.pinLow) i

/-- One full iteration of `loop`. -/
def tick (s : St) (i : Input) : St × Ev :=
  let m := tickMid s i
  let f := maintainWindow m.1 i
  (f.1, mergeEv m.2 f.2)

/-- `setup`: initialise the debounce state from the boot-time reading,
force the radio off, and, with `PUBLISH_ON_BOOT`, mark the initial
status dirty and run one publish pass. -/
def setup (pinLow : Bool) (i : Input) : St × Ev :=
  let r := readLogical pinLow
  let s0 : St := { lastStable := r, lastRead := r, lastBounceAt := i.now % U32,
                   dirty := false, windowDeadline := 0,
                   wifiConn := false, mqttConn := false, lastPub := none }
  let s1 := wifiRadioSleep s0
  if PUBLISH_ON_BOOT then
    ensureMqttAndPublishIfDirty { s1 with dirty := true } i
  else (s1, evNone)

/-- Iterate `tick` over a list of per-tick inputs. -/
def ticks (s : St) : List Input → St
  | [] => s
  | i :: l => ticks (tick s i).1 l

/-- Number of ticks on which the stable state changes. -/
def changeCount (s : St) : List Input → Nat
  | [] => 0
  | i :: l =>
      (if (tick s i).1.lastStable = s.lastStable then 0 else 1) + changeCount (tick s i).1 l

/-- A default input used when indexing past the end of a trace. -/
def inp0 : Input := ⟨0, false, false, false, false, false, false⟩

/-- The state before tick `j` of a trace. -/
def stateAt (s : St) (l : List Input) (j : Nat) : St := ticks s (l.take j)

/-- The input of tick `j` of a trace. -/
def inpAt (l : List Input) (j : Nat) : Input := l.getD j inp0

/-- The events of tick `j` of a trace. -/
def evAt (s : St) (l : List Input) (j : Nat) : Ev :=
  (tick (stateAt s l j) (inpAt l j)).2

/-- Whether `dirty` is set after the debounce phase of a tick from `s`
under input `i` (the value `ensureMqttAndPublishIfDirty` tests). -/
def dirtyPD (s : St) (i : Input) : Bool :=
  (debounce (applyDrops s i) (i.now % U32) i.pinLow).dirty

/-- The raw-tracking part of the debounce latch, as a pure function of
the input trace: the (`lastRead`, `lastBounceAt`) pair. -/
def bounceRef : Bool × Nat → List Input → Bool × Nat
  | p, [] => p
  | p, i :: l =>
      bounceRef
        (readLogical i.pinLow,
          if readLogical i.pinLow = p.1 then p.2 else i.now % U32) l

/-! ### Arithmetic helper lemmas -/

theorem U32_pos : 0 < U32 := by decide

theorem sub32_self (n : Nat) : sub32 n n = 0 := by
  have h : n % U32 ≤ U32 := le_of_lt (Nat.mod_lt _ U32_pos)
  simp [sub32, Nat.add_sub_cancel' h]

theorem sub32_of_le (a b : Nat) (hb : b ≤ a) (ha : a < U32) :
    sub32 a b = a - b := by
  have ha' : a % U32 = a := Nat.mod_eq_of_lt ha
  have hb' : b % U32 = b := Nat.mod_eq_of_lt (lt_of_le_of_lt hb ha)
  have hbU : b ≤ U32 := le_of_lt (lt_of_le_of_lt hb ha)
  have hx : a + (U32 - b) = U32 + (a - b) := by omega
  have hab : a - b < U32 := lt_of_le_of_lt (Nat.sub_le a b) ha
  rw [sub32, ha', hb', hx, Nat.add_mod_left, Nat.mod_eq_of_lt hab]

/-! ### Per-phase structural lemmas -/

theorem applyDrops_fields (s : St) (i : Input) :
    (applyDrops s i).lastStable = s.lastStable ∧
    (applyDrops s i).lastRead = s.lastRead ∧
    (applyDrops s i).lastBounceAt = s.lastBounceAt ∧
    (applyDrops s i).dirty = s.dirty ∧
    (applyDrops s i).windowDeadline = s.windowDeadline ∧
    (applyDrops s i).lastPub = s.lastPub := by
  simp [applyDrops]

theorem debounce_lastRead (s : St) (n : Nat) (p : Bool) :
    (debounce s n p).lastRead = readLogical p := by
  unfold debounce
  by_cases h : readLogical p = s.lastRead <;> simp [h] <;> split <;> simp_all

theorem debounce_lastBounceAt (s : St) (n : Nat) (p : Bool) :
    (debounce s n p).lastBounceAt =
      if readLogical p = s.lastRead then s.lastBounceAt else n := by
  unfold debounce
  by_cases h : readLogical p = s.lastRead <;> simp [h] <;> split <;> simp_all

theorem debounce_conn (s : St) (n : Nat) (p : Bool) :
    (debounce s n p).wifiConn = s.wifiConn ∧
    (debounce s n p).mqttConn = s.mqttConn ∧
    (debounce s n p).windowDeadline = s.windowDeadline ∧
    (debounce s n p).lastPub = s.lastPub := by
  unfold debounce
  by_cases h : readLogical p = s.lastRead <;> simp [h] <;> split <;> simp_all

theorem debounce_cases (s : St) (n : Nat) (p : Bool) :
    ((debounce s n p).lastStable = s.lastStable ∧ (debounce s n p).dirty = s.dirty) ∨
    ((debounce s n p).lastStable = readLogical p ∧ (debounce s n p).dirty = true ∧
      s.lastStable ≠ readLogical p) := by
  unfold debounce
  by_cases hr : readLogical p = s.lastRead <;> simp [hr] <;> split <;> simp_all

theorem debounce_dirty_mono (s : St) (n : Nat) (p : Bool) (h : s.dirty = true) :
    (debounce s n p).dirty = true := by
  rcases debounce_cases s n p with hc | hc
  · rw [hc.2, h]
  · exact hc.2.1

theorem debounce_dirty_of_stable_change (s : St) (n : Nat) (p : Bool)
    (h : (debounce s n p).lastStable ≠ s.lastStable) :
    (debounce s n p).dirty = true := by
  rcases debounce_cases s n p with hc | hc
  · exact absurd hc.1 h
  · exact hc.2.1

theorem debounce_dirty_new (s : St) (n : Nat) (p : Bool)
    (h : (debounce s n p).dirty = true) :
    s.dirty = true ∨ (debounce s n p).lastStable ≠ s.lastStable := by
  rcases debounce_cases s n p with hc | hc
  · rw [hc.2] at h
    exact Or.inl h
  · refine Or.inr ?_
    rw [hc.1]
    exact fun hh => hc.2.2 hh.symm

/-- The commit characterisation: the stable state changes on a tick of
the tracker exactly when the raw reading did not move this tick, the
quiet period has lasted at least `DEBOUNCE_MS`, and the settled raw
level differs from the stable state. -/
theorem debounce_commit_iff (s : St) (n : Nat) (p : Bool) :
    (debounce s n p).lastStable ≠ s.lastStable ↔
      (readLogical p = s.lastRead ∧ DEBOUNCE_MS ≤ sub32 n s.lastBounceAt ∧
        s.lastStable ≠ readLogical p) := by
  unfold debounce
  by_cases hr : readLogical p = s.lastRead
  · simp [hr]
    split <;> simp_all [ne_comm]
  · simp [hr]
    split <;> simp_all [sub32_self, DEBOUNCE_MS]

theorem maintain_fields (s : St) (i : Input) :
    (maintainWindow s i).1.lastStable = s.lastStable ∧
    (maintainWindow s i).1.lastRead = s.lastRead ∧
    (maintainWindow s i).1.lastBounceAt = s.lastBounceAt ∧
    (maintainWindow s i).1.dirty = s.dirty ∧
    (maintainWindow s i).1.windowDeadline = s.windowDeadline ∧
    (maintainWindow s i).1.lastPub = s.lastPub := by
  unfold maintainWindow mqttConnect wifiRadioSleep evNone
  by_cases hm : s.mqttConn = true <;> by_cases hok : i.mqttOk = true <;>
    simp [hm, hok] <;> split <;> simp_all

theorem maintain_ev (s : St) (i : Input) :
    (maintainWindow s i).2.statusAttempt = none ∧
    (maintainWindow s i).2.statusOk = false ∧
    (maintainWindow s i).2.schedActive = false ∧
    (maintainWindow s i).2.wifiAttempt = false ∧
    (maintainWindow s i).2.wifiFailed = false ∧
    (maintainWindow s i).2.mqttAttempt = false ∧
    (maintainWindow s i).2.mqttFailed = false := by
  unfold maintainWindow mqttConnect evNone
  by_cases hm : s.mqttConn = true <;> by_cases hok : i.mqttOk = true <;>
    simp [hm, hok] <;> split <;> simp_all

theorem maintain_teardown_iff (s : St) (i : Input) :
    (maintainWindow s i).2.teardown = true ↔
      (s.mqttConn = true ∧ s.dirty = false ∧
        expired32 (i.now % U32) s.windowDeadline = true) := by
  unfold maintainWindow mqttConnect evNone
  by_cases hm : s.mqttConn = true <;> by_cases hok : i.mqttOk = true <;>
    simp [hm, hok] <;> split <;> simp_all

theorem maintain_reconnect_iff (s : St) (i : Input) :
    (maintainWindow s i).2.reconnectAttempt = true ↔
      (s.mqttConn = false ∧ s.wifiConn = true ∧ s.windowDeadline ≠ 0 ∧
        i.now % U32 ≤ s.windowDeadline) := by
  unfold maintainWindow mqttConnect evNone
  by_cases hm : s.mqttConn = true <;> by_cases hok : i.mqttOk = true <;>
    simp [hm, hok] <;> split <;> simp_all

theorem sched_not_dirty (s : St) (i : Input) (h : s.dirty = false) :
    ensureMqttAndPublishIfDirty s i = (s, evNone) := by
  unfold ensureMqttAndPublishIfDirty
  simp [h]

theorem sched_fields (s : St) (i : Input) :
    (ensureMqttAndPublishIfDirty s i).1.lastStable = s.lastStable ∧
    (ensureMqttAndPublishIfDirty s i).1.lastRead = s.lastRead ∧
    (ensureMqttAndPublishIfDirty s i).1.lastBounceAt = s.lastBounceAt := by
  unfold ensureMqttAndPublishIfDirty publishStatus mqttConnect evNone
  by_cases hd : s.dirty = true <;> by_cases hw : s.wifiConn = true <;>
    by_cases hwo : i.wifiOk = true <;> by_cases hok : i.mqttOk = true <;>
    by_cases hm : s.mqttConn = true <;> by_cases hp : i.pubOk = true <;>
    simp_all

theorem sched_active_iff (s : St) (i : Input) :
    (ensureMqttAndPublishIfDirty s i).2.schedActive = true ↔ s.dirty = true := by
  unfold ensureMqttAndPublishIfDirty publishStatus mqttConnect evNone
  by_cases hd : s.dirty = true <;> by_cases hw : s.wifiConn = true <;>
    by_cases hwo : i.wifiOk = true <;> by_cases hok : i.mqttOk = true <;>
    by_cases hm : s.mqttConn = true <;> by_cases hp : i.pubOk = true <;>
    simp_all

theorem sched_statusOk_true (s : St) (i : Input)
    (h : (ensureMqttAndPublishIfDirty s i).2.statusOk = true) :
    s.dirty = true ∧
    (ensureMqttAndPublishIfDirty s i).1.dirty = false ∧
    (ensureMqttAndPublishIfDirty s i).1.mqttConn = true ∧
    (ensureMqttAndPublishIfDirty s i).1.wifiConn = true ∧
    (ensureMqttAndPublishIfDirty s i).1.windowDeadline = (i.now % U32 + WINDOW_MS) % U32 ∧
    (ensureMqttAndPublishIfDirty s i).1.lastPub = some (statusString s.lastStable) ∧
    (ensureMqttAndPublishIfDirty s i).2.statusAttempt =
      some (TOPIC_STATUS, statusString s.lastStable, true) := by
  revert h
  unfold ensureMqttAndPublishIfDirty publishStatus mqttConnect evNone
  by_cases hd : s.dirty = true <;> by_cases hw : s.wifiConn = true <;>
    by_cases hwo : i.wifiOk = true <;> by_cases hok : i.mqttOk = true <;>
    by_cases hm : s.mqttConn = true <;> by_cases hp : i.pubOk = true <;>
    simp_all

theorem sched_statusOk_false (s : St) (i : Input)
    (h : (ensureMqttAndPublishIfDirty s i).2.statusOk = false) :
    (ensureMqttAndPublishIfDirty s i).1.dirty = s.dirty ∧
    (ensureMqttAndPublishIfDirty s i).1.windowDeadline = s.windowDeadline ∧
    (ensureMqttAndPublishIfDirty s i).1.lastPub = s.lastPub := by
  revert h
  unfold ensureMqttAndPublishIfDirty publishStatus mqttConnect evNone
  by_cases hd : s.dirty = true <;> by_cases hw : s.wifiConn = true <;>
    by_cases hwo : i.wifiOk = true <;> by_cases hok : i.mqttOk = true <;>
    by_cases hm : s.mqttConn = true <;> by_cases hp : i.pubOk = true <;>
    simp_all

theorem sched_attempt (s : St) (i : Input) (x : String × String × Bool)
    (h : (ensureMqttAndPublishIfDirty s i).2.statusAttempt = some x) :
    x = (TOPIC_STATUS, statusString s.lastStable, true) ∧ s.dirty = true := by
  revert h
  unfold ensureMqttAndPublishIfDirty publishStatus mqttConnect evNone
  by_cases hd : s.dirty = true <;> by_cases hw : s.wifiConn = true <;>
    by_cases hwo : i.wifiOk = true <;> by_cases hok : i.mqttOk = true <;>
    by_cases hm : s.mqttConn = true <;> by_cases hp : i.pubOk = true <;>
    simp_all

theorem sched_wifiFailed (s : St) (i : Input)
    (h : (ensureMqttAndPublishIfDirty s i).2.wifiFailed = true) :
    (ensureMqttAndPublishIfDirty s i).1 = s ∧
    (ensureMqttAndPublishIfDirty s i).2.statusAttempt = none ∧
    (ensureMqttAndPublishIfDirty s i).2.statusOk = false ∧ s.dirty = true := by
  revert h
  unfold ensureMqttAndPublishIfDirty publishStatus mqttConnect evNone
  by_cases hd : s.dirty = true <;> by_cases hw : s.wifiConn = true <;>
    by_cases hwo : i.wifiOk = true <;> by_cases hok : i.mqttOk = true <;>
    by_cases hm : s.mqttConn = true <;> by_cases hp : i.pubOk = true <;>
    simp_all

theorem sched_mqttFailed (s : St) (i : Input)
    (h : (ensureMqttAndPublishIfDirty s i).2.mqttFailed = true) :
    (ensureMqttAndPublishIfDirty s i).1.dirty = s.dirty ∧
    (ensureMqttAndPublishIfDirty s i).2.statusAttempt = none ∧
    (ensureMqttAndPublishIfDirty s i).2.statusOk = false ∧ s.dirty = true := by
  revert h
  unfold ensureMqttAndPublishIfDirty publishStatus mqttConnect evNone
  by_cases hd : s.dirty = true <;> by_cases hw : s.wifiConn = true <;>
    by_cases hwo : i.wifiOk = true <;> by_cases hok : i.mqttOk = true <;>
    by_cases hm : s.mqttConn = true <;> by_cases hp : i.pubOk = true <;>
    simp_all

/-! ### Tick-level lemmas -/

/-- The state after step 1 of a tick (drop detection plus debounce). -/
def preSt (s : St) (i : Input) : St :=
  debounce (applyDrops s i) (i.now % U32) i.pinLow

theorem tickMid_eq (s : St) (i : Input) :
    tickMid s i = ensureMqttAndPublishIfDirty (preSt s i) i := rfl

theorem tick_fst (s : St) (i : Input) :
    (tick s i).1 = (maintainWindow (tickMid s i).1 i).1 := rfl

theorem tick_snd (s : St) (i : Input) :
    (tick s i).2 = mergeEv (tickMid s i).2 (maintainWindow (tickMid s i).1 i).2 := rfl

theorem sched_no_maintain_ev (s : St) (i : Input) :
    (ensureMqttAndPublishIfDirty s i).2.teardown = false ∧
    (ensureMqttAndPublishIfDirty s i).2.reconnectAttempt = false := by
  unfold ensureMqttAndPublishIfDirty publishStatus mqttConnect evNone
  by_cases hd : s.dirty = true <;> by_cases hw : s.wifiConn = true <;>
    by_cases hwo : i.wifiOk = true <;> by_cases hok : i.mqttOk = true <;>
    by_cases hm : s.mqttConn = true <;> by_cases hp : i.pubOk = true <;>
    simp_all

theorem tick_statusOk (s : St) (i : Input) :
    (tick s i).2.statusOk = (tickMid s i).2.statusOk := by
  rw [tick_snd]
  unfold mergeEv
  rw [(maintain_ev (tickMid s i).1 i).2.1]
  simp

theorem tick_statusAttempt (s : St) (i : Input) :
    (tick s i).2.statusAttempt = (tickMid s i).2.statusAttempt := by
  rw [tick_snd]
  unfold mergeEv
  rw [(maintain_ev (tickMid s i).1 i).1]
  cases (tickMid s i).2.statusAttempt <;> simp [Option.orElse]

theorem tick_teardown (s : St) (i : Input) :
    (tick s i).2.teardown = (maintainWindow (tickMid s i).1 i).2.teardown := by
  rw [tick_snd]
  unfold mergeEv
  rw [tickMid_eq, (sched_no_maintain_ev (preSt s i) i).1]
  simp

theorem tick_reconnect (s : St) (i : Input) :
    (tick s i).2.reconnectAttempt =
      (maintainWindow (tickMid s i).1 i).2.reconnectAttempt := by
  rw [tick_snd]
  unfold mergeEv
  rw [tickMid_eq, (sched_no_maintain_ev (preSt s i) i).2]
  simp

theorem tick_dirty (s : St) (i : Input) :
    (tick s i).1.dirty = (tickMid s i).1.dirty := by
  rw [tick_fst]
  exact (maintain_fields (tickMid s i).1 i).2.2.2.1

theorem tick_deb_fields (s : St) (i : Input) :
    (tick s i).1.lastStable = (preSt s i).lastStable ∧
    (tick s i).1.lastRead = (preSt s i).lastRead ∧
    (tick s i).1.lastBounceAt = (preSt s i).lastBounceAt := by
  rw [tick_fst]
  have hm := maintain_fields (tickMid s i).1 i
  have hs := sched_fields (preSt s i) i
  rw [tickMid_eq] at hm ⊢
  exact ⟨hm.1.trans hs.1, hm.2.1.trans hs.2.1, hm.2.2.1.trans hs.2.2⟩

theorem preSt_deb_eq (s : St) (i : Input) :
    (preSt s i).lastStable = (debounce s (i.now % U32) i.pinLow).lastStable ∧
    (preSt s i).lastRead = (debounce s (i.now % U32) i.pinLow).lastRead ∧
    (preSt s i).lastBounceAt = (debounce s (i.now % U32) i.pinLow).lastBounceAt ∧
    (preSt s i).dirty = (debounce s (i.now % U32) i.pinLow).dirty := by
  unfold preSt applyDrops debounce
  by_cases h : readLogical i.pinLow = s.lastRead <;> simp [h] <;>
    split <;> simp_all

theorem preSt_dirty_mono (s : St) (i : Input) (h : s.dirty = true) :
    (preSt s i).dirty = true := by
  unfold preSt
  exact debounce_dirty_mono (applyDrops s i) _ _ ((applyDrops_fields s i).2.2.2.1.trans h)

theorem preSt_conn (s : St) (i : Input) :
    (preSt s i).wifiConn = (s.wifiConn && !i.wifiDrop) ∧
    (preSt s i).mqttConn = (s.mqttConn && !i.mqttDrop) ∧
    (preSt s i).windowDeadline = s.windowDeadline ∧
    (preSt s i).lastPub = s.lastPub := by
  unfold preSt
  have h := debounce_conn (applyDrops s i) (i.now % U32) i.pinLow
  unfold applyDrops at h ⊢
  simp_all

theorem tick_deadline_mid (s : St) (i : Input) :
    (tick s i).1.windowDeadline = (tickMid s i).1.windowDeadline := by
  rw [tick_fst]
  exact (maintain_fields (tickMid s i).1 i).2.2.2.2.1

theorem tick_sched_ev (s : St) (i : Input) :
    (tick s i).2.wifiFailed = (tickMid s i).2.wifiFailed ∧
    (tick s i).2.mqttFailed = (tickMid s i).2.mqttFailed ∧
    (tick s i).2.schedActive = (tickMid s i).2.schedActive := by
  rw [tick_snd]
  unfold mergeEv
  have h := maintain_ev (tickMid s i).1 i
  rw [h.2.2.2.2.1, h.2.2.2.2.2.2, h.2.2.1]
  simp

/-! ### Claim theorems -/

/-- C8.  Idempotent teardown: `wifiRadioSleep` unconditionally drops the
broker session and powers the radio down from any state, leaving both
connectivity flags off (the `RadioOff` resting state); it is a total
function (no error outcome), and applying it twice yields exactly the
state of applying it once. -/
theorem claim_C8 (s : St) :
    (wifiRadioSleep s).wifiConn = false ∧ (wifiRadioSleep s).mqttConn = false ∧
    wifiRadioSleep (wifiRadioSleep s) = wifiRadioSleep s :=
  ⟨rfl, rfl, rfl⟩

/-- C6.  Availability birth/will pairing: every `mqttConnect` call
registers the last-will `("false")` retained on the availability topic,
and on success publishes the birth `("true")` retained on the same
topic; the two payload strings differ. -/
theorem claim_C6 (s : St) (ok : Bool) :
    (mqttConnect s ok).2.will = some (TOPIC_ONLINE, "false", true) ∧
    (ok = true →
      (mqttConnect s ok).2.birth = some (TOPIC_ONLINE, "true", true) ∧
      (mqttConnect s ok).1.mqttConn = true) ∧
    ("true" : String) ≠ "false" := by
  cases ok <;> simp [mqttConnect]

/-- Witness for C6 at a concrete state and a successful handshake. -/
theorem claim_C6_witness :
    (mqttConnect ⟨false, false, 0, false, 0, false, false, none⟩ true).2.birth =
      some (TOPIC_ONLINE, "true", true) ∧ ("true" : String) ≠ "false" :=
  ⟨((claim_C6 ⟨false, false, 0, false, 0, false, false, none⟩ true).2.1 rfl).1,
    (claim_C6 ⟨false, false, 0, false, 0, false, false, none⟩ true).2.2⟩

/-- C5.  Cheap reconnect only within the window: on a tick whose
broker session is not live when step 3 runs, the broker-session-only
reconnect is attempted exactly when the radio link is up and a started
window has not yet passed (`windowDeadline != 0 && millis() <=
windowDeadline`); in particular it is never attempted outside the
window. -/
theorem claim_C5 (s : St) (i : Input)
    (h : (tickMid s i).1.mqttConn = false) :
    (tick s i).2.reconnectAttempt = true ↔
      ((tickMid s i).1.wifiConn = true ∧ (tickMid s i).1.windowDeadline ≠ 0 ∧
        i.now % U32 ≤ (tickMid s i).1.windowDeadline) := by
  rw [tick_reconnect, maintain_reconnect_iff]
  simp [h]

/-- Witness for C5: link up, window active, session down: the cheap
reconnect fires. -/
theorem claim_C5_witness :
    (tick ⟨false, false, 0, false, 1000, true, false, none⟩
      ⟨500, true, false, false, false, false, false⟩).2.reconnectAttempt = true :=
  (claim_C5 ⟨false, false, 0, false, 1000, true, false, none⟩
      ⟨500, true, false, false, false, false, false⟩ rfl).2
    ⟨rfl, by decide, by decide⟩

/-- C9.  While the window deadline still holds its initial `0`
sentinel (no publish has ever succeeded), the cheap broker-session-only
reconnect is never attempted, whatever the link state and dirty flag. -/
theorem claim_C9 (s : St) (i : Input) (h : s.windowDeadline = 0) :
    (tick s i).2.reconnectAttempt = false := by
  rw [tick_reconnect]
  by_cases hok : (tickMid s i).2.statusOk = true
  · have hm := sched_statusOk_true (preSt s i) i (by rw [← tickMid_eq]; exact hok)
    have hconn : (tickMid s i).1.mqttConn = true := by
      rw [tickMid_eq]; exact hm.2.2.1
    cases hb : (maintainWindow (tickMid s i).1 i).2.reconnectAttempt with
    | false => rfl
    | true =>
        have := (maintain_reconnect_iff (tickMid s i).1 i).mp hb
        rw [hconn] at this
        exact absurd this.1 (by simp)
  · simp only [Bool.not_eq_true] at hok
    have hsf := sched_statusOk_false (preSt s i) i (by rw [← tickMid_eq]; exact hok)
    have hdl : (tickMid s i).1.windowDeadline = 0 := by
      rw [tickMid_eq, hsf.2.1, (preSt_conn s i).2.2.1, h]
    cases hb : (maintainWindow (tickMid s i).1 i).2.reconnectAttempt with
    | false => rfl
    | true =>
        have := (maintain_reconnect_iff (tickMid s i).1 i).mp hb
        exact absurd hdl this.2.2.1

/-- Witness for C9: fresh-boot state, link up and dirty, reconnect still
not attempted because no publish has ever succeeded. -/
theorem claim_C9_witness :
    (tick ⟨false, false, 0, true, 0, true, false, none⟩
      ⟨500, true, false, false, false, false, false⟩).2.reconnectAttempt = false :=
  claim_C9 ⟨false, false, 0, true, 0, true, false, none⟩
    ⟨500, true, false, false, false, false, false⟩ rfl

/-- C1 (amended).  Window reset law: every successful status publish of
a tick sets the deadline to `now + WINDOW_MS` (32-bit), independent of
the previous deadline; and the session/radio teardown is invoked at a
tick boundary if and only if the broker session is live at the
post-publish check and `dirty == false` and `now >= deadline` in the
firmware's wraparound-aware comparison. -/
theorem claim_C1_amended :
    (∀ (s : St) (i : Input), (tick s i).2.statusOk = true →
      (tick s i).1.windowDeadline = (i.now % U32 + WINDOW_MS) % U32) ∧
    (∀ (s : St) (i : Input), (tick s i).2.teardown = true ↔
      ((tickMid s i).1.mqttConn = true ∧ (tickMid s i).1.dirty = false ∧
        expired32 (i.now % U32) ((tickMid s i).1.windowDeadline) = true)) := by
  constructor
  · intro s i h
    rw [tick_statusOk] at h
    have hm := sched_statusOk_true (preSt s i) i (by rw [← tickMid_eq]; exact h)
    rw [tick_deadline_mid, tickMid_eq]
    exact hm.2.2.2.2.1
  · intro s i
    rw [tick_teardown]
    exact maintain_teardown_iff (tickMid s i).1 i

/-- Witness for C1 (amended): a dirty, fully connected state whose
publish succeeds at `millis() = 100` gets deadline `100 + WINDOW_MS`. -/
theorem claim_C1_witness :
    (tick ⟨false, false, 0, true, 0, true, true, none⟩
      ⟨100, true, true, true, true, false, false⟩).1.windowDeadline =
      (100 % U32 + WINDOW_MS) % U32 :=
  claim_C1_amended.1 ⟨false, false, 0, true, 0, true, true, none⟩
    ⟨100, true, true, true, true, false, false⟩ (by decide)

/-- Counterexample to C1 as stated.  Boot with a successful boot
publish (deadline becomes `WINDOW_MS`); the broker session then drops
asynchronously.  On the tick at `millis() = 700000` we have
`dirty == false` and `now >= deadline`, yet no teardown is invoked
(the firmware only tears down inside the `mqtt.connected()` branch), so
"teardown iff `dirty == false` and `now >= deadline`" is false. -/
theorem claim_C1_counterexample :
    (setup true ⟨0, true, true, true, true, false, false⟩).1.dirty = false ∧
    (setup true ⟨0, true, true, true, true, false, false⟩).1.windowDeadline ≤
      700000 % U32 ∧
    (tick (setup true ⟨0, true, true, true, true, false, false⟩).1
      ⟨700000, true, false, false, false, false, true⟩).2.teardown = false :=
  ⟨by decide, by decide, by decide⟩

/-- C4.  Failure retry without escalation: on any tick where the Wi-Fi
attempt, the broker handshake, or the transport send fails, `dirty` is
still set at the end of the tick and no (further) status publish
happens that tick; the publish machinery is re-entered on any tick that
begins dirty, and in particular on the tick following a failure. -/
theorem claim_C4 :
    (∀ (s : St) (i : Input), (tick s i).2.wifiFailed = true →
      (tick s i).1.dirty = true ∧ (tick s i).2.statusAttempt = none ∧
      (tick s i).2.statusOk = false) ∧
    (∀ (s : St) (i : Input), (tick s i).2.mqttFailed = true →
      (tick s i).1.dirty = true ∧ (tick s i).2.statusAttempt = none ∧
      (tick s i).2.statusOk = false) ∧
    (∀ (s : St) (i : Input), (tick s i).2.statusOk = false →
      (tick s i).2.statusAttempt ≠ none → (tick s i).1.dirty = true) ∧
    (∀ (s : St) (i : Input) (i2 : Input), (tick s i).1.dirty = true →
      (tick (tick s i).1 i2).2.schedActive = true) := by
  refine ⟨?_, ?_, ?_, ?_⟩
  · intro s i h
    rw [(tick_sched_ev s i).1, tickMid_eq] at h
    have hw := sched_wifiFailed (preSt s i) i h
    refine ⟨?_, ?_, ?_⟩
    · rw [tick_dirty, tickMid_eq, hw.1]
      exact hw.2.2.2
    · rw [tick_statusAttempt, tickMid_eq]
      exact hw.2.1
    · rw [tick_statusOk, tickMid_eq]
      exact hw.2.2.1
  · intro s i h
    rw [(tick_sched_ev s i).2.1, tickMid_eq] at h
    have hw := sched_mqttFailed (preSt s i) i h
    refine ⟨?_, ?_, ?_⟩
    · rw [tick_dirty, tickMid_eq, hw.1]
      exact hw.2.2.2
    · rw [tick_statusAttempt, tickMid_eq]
      exact hw.2.1
    · rw [tick_statusOk, tickMid_eq]
      exact hw.2.2.1
  · intro s i hok hatt
    rw [tick_statusAttempt, tickMid_eq] at hatt
    rw [tick_statusOk, tickMid_eq] at hok
    rcases ha : (ensureMqttAndPublishIfDirty (preSt s i) i).2.statusAttempt with _ | x
    · exact absurd ha hatt
    · have hx := sched_attempt (preSt s i) i x ha
      have hsf := sched_statusOk_false (preSt s i) i hok
      rw [tick_dirty, tickMid_eq, hsf.1]
      exact hx.2
  · intro s i i2 h
    rw [(tick_sched_ev (tick s i).1 i2).2.2, tickMid_eq]
    rw [sched_active_iff]
    exact preSt_dirty_mono (tick s i).1 i2 h

/-- Witness for C4: a dirty state whose Wi-Fi attempt fails keeps
`dirty` set, and the next tick re-enters the publish machinery. -/
theorem claim_C4_witness :
    (tick ⟨false, false, 0, true, 0, false, false, none⟩
      ⟨100, true, false, false, false, false, false⟩).1.dirty = true :=
  (claim_C4.1 ⟨false, false, 0, true, 0, false, false, none⟩
    ⟨100, true, false, false, false, false, false⟩ (by decide)).1

/-! ### Trace machinery -/

theorem ticks_append (s : St) (l1 l2 : List Input) :
    ticks s (l1 ++ l2) = ticks (ticks s l1) l2 := by
  induction l1 generalizing s with
  | nil => rfl
  | cons i l ih => simp [ticks, ih]

theorem evAt_eq (s : St) (l : List Input) (j : Nat) :
    evAt s l j = (tick (stateAt s l j) (inpAt l j)).2 := rfl

theorem stateAt_succ (s : St) (l : List Input) (j : Nat) (h : j < l.length) :
    stateAt s l (j + 1) = (tick (stateAt s l j) (inpAt l j)).1 := by
  unfold stateAt inpAt
  have h1 : l[j]? = some l[j] := List.getElem?_eq_getElem h
  rw [List.take_succ, h1, ticks_append]
  simp [ticks, List.getD, h1]

theorem tick_ok_clears (s : St) (i : Input)
    (h : (tick s i).2.statusOk = true) : (tick s i).1.dirty = false := by
  rw [tick_statusOk, tickMid_eq] at h
  rw [tick_dirty, tickMid_eq]
  exact (sched_statusOk_true (preSt s i) i h).2.1

theorem tick_fail_dirty (s : St) (i : Input)
    (h : (tick s i).2.statusOk = false) :
    (tick s i).1.dirty = (preSt s i).dirty := by
  rw [tick_statusOk, tickMid_eq] at h
  rw [tick_dirty, tickMid_eq]
  exact (sched_statusOk_false (preSt s i) i h).1

theorem tick_payload (s : St) (i : Input) (x : String × String × Bool)
    (h : (tick s i).2.statusAttempt = some x) :
    x = (TOPIC_STATUS, statusString (preSt s i).lastStable, true) := by
  rw [tick_statusAttempt, tickMid_eq] at h
  exact (sched_attempt (preSt s i) i x h).1

/-- C3.  At-most-one-pending: consider any contiguous dirty period of a
trace, i.e. ticks `a..b` such that the status is pending when tick `a`
reaches the publish step, `dirty` is still set at the end of every tick
before `b`, and clear at the end of tick `b`.  Then the publish of tick
`b` succeeded, no tick of the period before `b` published successfully
(so exactly one publish per contiguous dirty period), and every payload
ever handed to the transport is `statusString` of the stable state at
the moment of publish (read fresh after that tick's debounce), not a
frozen snapshot. -/
theorem claim_C3 (s : St) (l : List Input) (a b : Nat)
    (hab : a ≤ b) (hblen : b < l.length)
    (hstart : (preSt (stateAt s l a) (inpAt l a)).dirty = true)
    (hmid : ∀ j, a ≤ j → j < b → (stateAt s l (j + 1)).dirty = true)
    (hend : (stateAt s l (b + 1)).dirty = false) :
    (evAt s l b).statusOk = true ∧
    (∀ j, a ≤ j → j < b → (evAt s l j).statusOk = false) ∧
    (∀ j x, (evAt s l j).statusAttempt = some x →
      x = (TOPIC_STATUS,
            statusString (preSt (stateAt s l j) (inpAt l j)).lastStable, true)) := by
  refine ⟨?_, ?_, ?_⟩
  · cases hc : (evAt s l b).statusOk with
    | true => rfl
    | false =>
        exfalso
        have hd := tick_fail_dirty (stateAt s l b) (inpAt l b)
          (by rw [← evAt_eq]; exact hc)
        have hpre : (preSt (stateAt s l b) (inpAt l b)).dirty = true := by
          rcases Nat.eq_or_lt_of_le hab with he | hlt
          · rw [← he]
            exact hstart
          · have hj := hmid (b - 1) (by omega) (by omega)
            have he2 : b - 1 + 1 = b := by omega
            rw [he2] at hj
            exact preSt_dirty_mono _ _ hj
        rw [hpre] at hd
        rw [stateAt_succ s l b hblen, hd] at hend
        exact Bool.true_eq_false ▸ hend
  · intro j haj hjb
    cases hc : (evAt s l j).statusOk with
    | false => rfl
    | true =>
        exfalso
        have hclear := tick_ok_clears (stateAt s l j) (inpAt l j)
          (by rw [← evAt_eq]; exact hc)
        have hdj := hmid j haj hjb
        rw [stateAt_succ s l j (by omega), hclear] at hdj
        exact Bool.false_eq_true ▸ hdj
  · intro j x hx
    exact tick_payload (stateAt s l j) (inpAt l j) x (by rw [← evAt_eq]; exact hx)

/-- Witness for C3: a single dirty tick whose publish succeeds: exactly
one successful publish, payload read fresh. -/
theorem claim_C3_witness :
    (evAt ⟨false, false, 0, true, 0, true, true, none⟩
      [⟨100, true, true, true, true, false, false⟩] 0).statusOk = true :=
  (claim_C3 ⟨false, false, 0, true, 0, true, true, none⟩
    [⟨100, true, true, true, true, false, false⟩] 0 0 (le_refl 0) (by decide)
    (by decide) (fun j h1 h2 => absurd h2 (Nat.not_lt_zero j))
    (by decide)).1

/-- The C10 invariant: whenever nothing is pending, the most recent
successfully published status payload (ghost `lastPub`) matches the
current stable state. -/
def pubInv (s : St) : Prop :=
  s.dirty = false → ∀ p, s.lastPub = some p → p = statusString s.lastStable

theorem tick_lastPub_mid (s : St) (i : Input) :
    (tick s i).1.lastPub = (tickMid s i).1.lastPub := by
  rw [tick_fst]
  exact (maintain_fields (tickMid s i).1 i).2.2.2.2.2

theorem preSt_stable_of_not_dirty (s : St) (i : Input)
    (h : (preSt s i).dirty = false) :
    (preSt s i).lastStable = s.lastStable ∧ s.dirty = false := by
  constructor
  · by_contra hne
    have hch : (preSt s i).lastStable ≠ (applyDrops s i).lastStable := by
      rw [(applyDrops_fields s i).1]
      exact hne
    have := debounce_dirty_of_stable_change (applyDrops s i) (i.now % U32) i.pinLow hch
    rw [preSt] at h
    rw [h] at this
    exact Bool.false_eq_true ▸ this
  · cases hsd : s.dirty with
    | false => rfl
    | true =>
        rw [preSt_dirty_mono s i hsd] at h
        exact Bool.true_eq_false ▸ h

theorem pubInv_preserved (s : St) (i : Input) (h : pubInv s) :
    pubInv (tick s i).1 := by
  intro hd p hp
  have hstable := (tick_deb_fields s i).1
  cases hok : (tick s i).2.statusOk with
  | true =>
      have hm := sched_statusOk_true (preSt s i) i
        (by rw [← tickMid_eq, ← tick_statusOk]; exact hok)
      rw [tick_lastPub_mid, tickMid_eq, hm.2.2.2.2.2.1] at hp
      rw [hstable]
      exact (Option.some_inj.mp hp).symm
  | false =>
      have hfd := tick_fail_dirty s i hok
      rw [hfd] at hd
      have hst := preSt_stable_of_not_dirty s i hd
      have hsf := sched_statusOk_false (preSt s i) i
        (by rw [← tickMid_eq, ← tick_statusOk]; exact hok)
      rw [tick_lastPub_mid, tickMid_eq, hsf.2.2, (preSt_conn s i).2.2.2] at hp
      rw [hstable, hst.1]
      exact h hst.2 p hp

theorem pubInv_ticks (s : St) (l : List Input) (h : pubInv s) :
    pubInv (ticks s l) := by
  induction l generalizing s with
  | nil => exact h
  | cons i l ih => exact ih (tick s i).1 (pubInv_preserved s i h)

theorem pubInv_setup (p0 : Bool) (i : Input) : pubInv (setup p0 i).1 := by
  intro hd p hp
  unfold setup wifiRadioSleep at hd hp ⊢
  simp only [PUBLISH_ON_BOOT, if_true] at hd hp ⊢
  cases hok : (ensureMqttAndPublishIfDirty
      ⟨readLogical p0, readLogical p0, i.now % U32, true, 0, false, false, none⟩
      i).2.statusOk with
  | true =>
      have hm := sched_statusOk_true _ i hok
      rw [hm.2.2.2.2.2.1] at hp
      have hst := (sched_fields
        ⟨readLogical p0, readLogical p0, i.now % U32, true, 0, false, false, none⟩ i).1
      rw [hst]
      exact (Option.some_inj.mp hp).symm
  | false =>
      have hsf := sched_statusOk_false _ i hok
      rw [hsf.1] at hd
      exact absurd hd (by simp)

/-- C10.  In every state reachable from boot in which `dirty == false`
and some status publish has succeeded, the payload of the most recent
successful status publish (ghost `lastPub`) equals `statusString` of
the current stable state. -/
theorem claim_C10 (p0 : Bool) (i : Input) (l : List Input) (p : String)
    (hd : (ticks (setup p0 i).1 l).dirty = false)
    (hp : (ticks (setup p0 i).1 l).lastPub = some p) :
    p = statusString (ticks (setup p0 i).1 l).lastStable :=
  pubInv_ticks (setup p0 i).1 l (pubInv_setup p0 i) hd p hp

/-- Witness for C10: right after a successful boot publish, `lastPub`
is `"closed"` and matches the stable state. -/
theorem claim_C10_witness :
    "closed" = statusString
      (ticks (setup true ⟨0, true, true, true, true, false, false⟩).1 []).lastStable :=
  claim_C10 true ⟨0, true, true, true, true, false, false⟩ [] "closed"
    (by decide) (by decide)

/-! ### Debounce-trace lemmas -/

theorem tick_bounce_step (s : St) (i : Input) :
    (tick s i).1.lastRead = readLogical i.pinLow ∧
    (tick s i).1.lastBounceAt =
      (if readLogical i.pinLow = s.lastRead then s.lastBounceAt else i.now % U32) := by
  have h := tick_deb_fields s i
  constructor
  · rw [h.2.1, (preSt_deb_eq s i).2.1, debounce_lastRead]
  · rw [h.2.2, (preSt_deb_eq s i).2.2.1, debounce_lastBounceAt]

theorem tick_commit_iff (s : St) (i : Input) :
    (tick s i).1.lastStable ≠ s.lastStable ↔
      (readLogical i.pinLow = s.lastRead ∧
        DEBOUNCE_MS ≤ sub32 (i.now % U32) s.lastBounceAt ∧
        s.lastStable ≠ readLogical i.pinLow) := by
  rw [(tick_deb_fields s i).1, (preSt_deb_eq s i).1]
  exact debounce_commit_iff s (i.now % U32) i.pinLow

theorem tick_commit_val (s : St) (i : Input)
    (h : (tick s i).1.lastStable ≠ s.lastStable) :
    (tick s i).1.lastStable = readLogical i.pinLow := by
  rw [(tick_deb_fields s i).1, (preSt_deb_eq s i).1] at h ⊢
  rcases debounce_cases s (i.now % U32) i.pinLow with hc | hc
  · exact absurd hc.1 h
  · exact hc.1

theorem steady_count (l : List Input) : ∀ (s : St) (v : Bool),
    s.lastStable = v → s.lastRead = v →
    (∀ i2 ∈ l, readLogical i2.pinLow = v) →
    changeCount s l = 0 ∧ (ticks s l).lastStable = v ∧ (ticks s l).lastRead = v := by
  induction l with
  | nil =>
      intro s v h1 h2 _
      exact ⟨rfl, h1, h2⟩
  | cons i l ih =>
      intro s v h1 h2 hr
      have hrv : readLogical i.pinLow = v := hr i (List.mem_cons_self i l)
      have hnc : (tick s i).1.lastStable = s.lastStable := by
        by_contra hne
        have hcc := (tick_commit_iff s i).mp hne
        rw [hrv] at hcc
        exact hcc.2.2 h1
      have hread : (tick s i).1.lastRead = v := by
        rw [(tick_bounce_step s i).1, hrv]
      have hstable : (tick s i).1.lastStable = v := by rw [hnc, h1]
      have hrest := ih (tick s i).1 v hstable hread
        (fun i2 hm => hr i2 (List.mem_cons_of_mem i hm))
      refine ⟨?_, ?_, ?_⟩
      · simp [changeCount, hnc, hrest.1]
      · simpa [ticks] using hrest.2.1
      · simpa [ticks] using hrest.2.2

theorem core_commit (l : List Input) : ∀ (s : St) (v : Bool) (t0 : Nat),
    s.lastRead = v → s.lastBounceAt = t0 → s.lastStable ≠ v →
    (∀ i2 ∈ l, readLogical i2.pinLow = v) →
    (∀ i2 ∈ l, t0 ≤ i2.now % U32) →
    (∃ i2 ∈ l, t0 + DEBOUNCE_MS ≤ i2.now % U32) →
    changeCount s l = 1 ∧ (ticks s l).lastStable = v := by
  induction l with
  | nil =>
      intro s v t0 _ _ _ _ _ hex
      rcases hex with ⟨i2, hm, _⟩
      exact absurd hm (List.not_mem_nil i2)
  | cons i l ih =>
      intro s v t0 hr hb hs hraw htime hex
      have hrv : readLogical i.pinLow = v := hraw i (List.mem_cons_self i l)
      have ht0 : t0 ≤ i.now % U32 := htime i (List.mem_cons_self i l)
      have hnlt : i.now % U32 < U32 := Nat.mod_lt _ U32_pos
      have hsub : sub32 (i.now % U32) t0 = i.now % U32 - t0 :=
        sub32_of_le _ _ ht0 hnlt
      by_cases hc : t0 + DEBOUNCE_MS ≤ i.now % U32
      · have hch : (tick s i).1.lastStable ≠ s.lastStable := by
          rw [tick_commit_iff]
          refine ⟨by rw [hrv, hr], ?_, by rw [hrv]; exact hs⟩
          rw [hb, hsub]
          omega
        have hval : (tick s i).1.lastStable = v := by
          rw [tick_commit_val s i hch, hrv]
        have hread : (tick s i).1.lastRead = v := by
          rw [(tick_bounce_step s i).1, hrv]
        have hrest := steady_count l (tick s i).1 v hval hread
          (fun i2 hm => hraw i2 (List.mem_cons_of_mem i hm))
        constructor
        · simp [changeCount, hch, hrest.1]
        · simpa [ticks] using hrest.2.1
      · have hnc : (tick s i).1.lastStable = s.lastStable := by
          by_contra hne
          have hcc := (tick_commit_iff s i).mp hne
          rw [hb, hsub] at hcc
          have := hcc.2.1
          omega
        have hread : (tick s i).1.lastRead = v := by
          rw [(tick_bounce_step s i).1, hrv]
        have hbounce : (tick s i).1.lastBounceAt = t0 := by
          rw [(tick_bounce_step s i).2, hrv, hr, if_pos rfl, hb]
        have hstable : (tick s i).1.lastStable ≠ v := by
          rw [hnc]
          exact hs
        have hex2 : ∃ i2 ∈ l, t0 + DEBOUNCE_MS ≤ i2.now % U32 := by
          rcases hex with ⟨i2, hm, hle⟩
          rcases List.mem_cons.mp hm with he | hm2
          · exact absurd (he ▸ hle) hc
          · exact ⟨i2, hm2, hle⟩
        have hrest := ih (tick s i).1 v t0 hread hbounce hstable
          (fun i2 hm => hraw i2 (List.mem_cons_of_mem i hm))
          (fun i2 hm => htime i2 (List.mem_cons_of_mem i hm)) hex2
        constructor
        · simp [changeCount, hnc, hrest.1]
        · simpa [ticks] using hrest.2

theorem debounce_no_change (l : List Input) : ∀ (s : St),
    (∀ (j : Nat) (hj : j < l.length),
      readLogical (l.get ⟨j, hj⟩).pinLow ≠ s.lastStable →
      sub32 ((l.get ⟨j, hj⟩).now % U32)
        (bounceRef (s.lastRead, s.lastBounceAt) (l.take (j + 1))).2 < DEBOUNCE_MS) →
    (ticks s l).lastStable = s.lastStable := by
  induction l with
  | nil =>
      intro s _
      rfl
  | cons i l ih =>
      intro s ha
      have hj0 : 0 < (i :: l).length := by simp
      have hstep : (tick s i).1.lastStable = s.lastStable := by
        by_contra hch
        have hcc := (tick_commit_iff s i).mp hch
        have h0 := ha 0 hj0 (by
          have hg0 : (i :: l).get ⟨0, hj0⟩ = i := rfl
          rw [hg0]
          exact fun he => hcc.2.2 he.symm)
        have hg0 : (i :: l).get ⟨0, hj0⟩ = i := rfl
        have hbr0 : (bounceRef (s.lastRead, s.lastBounceAt) ((i :: l).take 1)).2 =
            (if readLogical i.pinLow = s.lastRead then s.lastBounceAt else i.now % U32) := rfl
        rw [hg0, hbr0, if_pos hcc.1] at h0
        have := hcc.2.1
        omega
      have hticks : ticks s (i :: l) = ticks (tick s i).1 l := rfl
      rw [hticks, ← hstep]
      apply ih (tick s i).1
      intro j hj hne
      have hj2 : j + 1 < (i :: l).length := by
        simp only [List.length_cons]
        omega
      have hbr : bounceRef (s.lastRead, s.lastBounceAt) ((i :: l).take (j + 1 + 1)) =
          bounceRef ((tick s i).1.lastRead, (tick s i).1.lastBounceAt) (l.take (j + 1)) := by
        have hpair : ((tick s i).1.lastRead, (tick s i).1.lastBounceAt) =
            (readLogical i.pinLow,
              if readLogical i.pinLow = s.lastRead then s.lastBounceAt else i.now % U32) := by
          rw [(tick_bounce_step s i).1, (tick_bounce_step s i).2]
        rw [hpair]
        rfl
      have hget : (i :: l).get ⟨j + 1, hj2⟩ = l.get ⟨j, hj⟩ := rfl
      have ha2 := ha (j + 1) hj2
      rw [hget, hbr] at ha2
      rw [hstep] at hne
      exact ha2 hne

/-- C2.  Debounce stability, in three parts matching the claim.
First: on any input trace in which, whenever the raw reading differs
from the stable state, the time since the last raw-level change (the
`bounceRef` fold replays the firmware's bounce latch over the inputs)
is still below `DEBOUNCE_MS` — i.e. every bounce persists for less
than the debounce interval — the stable state never changes.
Second: from a settled state, a raw level `v` that differs from the
stable state and is sustained (same reading on every tick, some tick at
least `DEBOUNCE_MS` after the first) produces exactly one reported
stable-state change, to `v`.  Third, the invariant: the stable state
changes on a tick only if the raw reading equals `lastRead` (no bounce
this tick) and has remained constant for at least `DEBOUNCE_MS` since
`lastBounceAt`. -/
theorem claim_C2 :
    (∀ (l : List Input) (s : St),
      (∀ (j : Nat) (hj : j < l.length),
        readLogical (l.get ⟨j, hj⟩).pinLow ≠ s.lastStable →
        sub32 ((l.get ⟨j, hj⟩).now % U32)
          (bounceRef (s.lastRead, s.lastBounceAt) (l.take (j + 1))).2 < DEBOUNCE_MS) →
      (ticks s l).lastStable = s.lastStable) ∧
    (∀ (s : St) (i : Input) (l : List Input) (v : Bool),
      v ≠ s.lastStable → s.lastRead = s.lastStable → readLogical i.pinLow = v →
      (∀ i2 ∈ l, readLogical i2.pinLow = v) →
      (∀ i2 ∈ l, i.now % U32 ≤ i2.now % U32) →
      (∃ i2 ∈ l, i.now % U32 + DEBOUNCE_MS ≤ i2.now % U32) →
      changeCount s (i :: l) = 1 ∧ (ticks s (i :: l)).lastStable = v) ∧
    (∀ (s : St) (i : Input), (tick s i).1.lastStable ≠ s.lastStable →
      (readLogical i.pinLow = s.lastRead ∧
        DEBOUNCE_MS ≤ sub32 (i.now % U32) s.lastBounceAt ∧
        s.lastStable ≠ readLogical i.pinLow)) := by
  refine ⟨debounce_no_change, ?_, fun s i => (tick_commit_iff s i).mp⟩
  intro s i l v hne hsettle hrv hraw htime hsust
  have hnc : (tick s i).1.lastStable = s.lastStable := by
    by_contra hch
    have hcc := (tick_commit_iff s i).mp hch
    rw [hrv] at hcc
    exact hne (hcc.1.trans hsettle)
  have hread : (tick s i).1.lastRead = v := by
    rw [(tick_bounce_step s i).1, hrv]
  have hbounce : (tick s i).1.lastBounceAt = i.now % U32 := by
    rw [(tick_bounce_step s i).2, hrv, hsettle, if_neg hne]
  have hstable : (tick s i).1.lastStable ≠ v := by
    rw [hnc]
    exact fun hh => hne hh.symm
  have hrest := core_commit l (tick s i).1 v (i.now % U32) hread hbounce hstable
    hraw htime hsust
  constructor
  · simp [changeCount, hnc, hrest.1]
  · simpa [ticks] using hrest.2

/-- Witness for C2 (second part): the door opens at `t = 1000` and the
level holds through `t = 1100 >= 1000 + DEBOUNCE_MS`: exactly one
reported change. -/
theorem claim_C2_witness :
    changeCount ⟨false, false, 0, false, 0, false, false, none⟩
      [⟨1000, false, false, false, false, false, false⟩,
        ⟨1100, false, false, false, false, false, false⟩] = 1 :=
  (claim_C2.2.1 ⟨false, false, 0, false, 0, false, false, none⟩
    ⟨1000, false, false, false, false, false, false⟩
    [⟨1100, false, false, false, false, false, false⟩] true
    (by decide) rfl (by decide)
    (by intro i2 hm; rw [List.mem_singleton.mp hm]; decide)
    (by intro i2 hm; rw [List.mem_singleton.mp hm]; decide)
    ⟨⟨1100, false, false, false, false, false, false⟩, List.mem_singleton_self _,
      by decide⟩).1

/-! ### Boot-publish lemmas -/

theorem setup_eq (p0 : Bool) (i : Input) :
    setup p0 i = ensureMqttAndPublishIfDirty
      ⟨readLogical p0, readLogical p0, i.now % U32, true, 0, false, false, none⟩ i := rfl

theorem preSt_stable_val (s : St) (i2 : Input) :
    (preSt s i2).lastStable = s.lastStable ∨
    (preSt s i2).lastStable = readLogical i2.pinLow := by
  unfold preSt
  rcases debounce_cases (applyDrops s i2) (i2.now % U32) i2.pinLow with hc | hc
  · rw [hc.1, (applyDrops_fields s i2).1]
    exact Or.inl rfl
  · exact Or.inr hc.1

theorem inpAt_mem (l : List Input) (j : Nat) (h : j < l.length) :
    inpAt l j ∈ l := by
  unfold inpAt
  rw [List.getD_eq_getElem l inp0 h]
  exact List.getElem_mem h

/-- C7.  Boot publish: with `PUBLISH_ON_BOOT` (true in the source) and
the initial raw read mapping to closed, any status payload that `setup`
hands to the transport is exactly `"closed"` with `retained = true`;
while the door never moves (every read maps to closed), the same holds
for every status publish of every later tick — in particular for the
first one, whenever it occurs.  Moreover a status publish happens on a
tick only when `dirty` is set after the debounce step, and `dirty`
arises only from an earlier tick (ultimately the boot marking) or from
a debounced stable-state transition on this tick. -/
theorem claim_C7 (p0 : Bool) (i : Input) (l : List Input)
    (hp0 : readLogical p0 = false)
    (hraw : ∀ i2 ∈ l, readLogical i2.pinLow = false) :
    PUBLISH_ON_BOOT = true ∧
    (∀ x, (setup p0 i).2.statusAttempt = some x →
      x = (TOPIC_STATUS, "closed", true)) ∧
    (∀ j x, j < l.length →
      (evAt (setup p0 i).1 l j).statusAttempt = some x →
      x = (TOPIC_STATUS, "closed", true)) ∧
    (∀ (s : St) (i2 : Input), (tick s i2).2.statusAttempt ≠ none →
      (preSt s i2).dirty = true) ∧
    (∀ (s : St) (i2 : Input), (preSt s i2).dirty = true →
      s.dirty = true ∨ (preSt s i2).lastStable ≠ s.lastStable) := by
  refine ⟨rfl, ?_, ?_, ?_, ?_⟩
  · intro x hx
    rw [setup_eq] at hx
    have h := sched_attempt _ i x hx
    rw [h.1]
    simp only [statusString]
    rw [hp0]
    rfl
  · intro j x hj hx
    have hb : (setup p0 i).1.lastStable = false ∧ (setup p0 i).1.lastRead = false := by
      rw [setup_eq]
      have h1 := (sched_fields
        ⟨readLogical p0, readLogical p0, i.now % U32, true, 0, false, false, none⟩ i).1
      have h2 := (sched_fields
        ⟨readLogical p0, readLogical p0, i.now % U32, true, 0, false, false, none⟩ i).2.1
      rw [h1, h2]
      exact ⟨hp0, hp0⟩
    have hst := steady_count (l.take j) (setup p0 i).1 false hb.1 hb.2
      (fun i2 hm => hraw i2 (List.take_subset j l hm))
    have hpayload := tick_payload (stateAt (setup p0 i).1 l j) (inpAt l j) x
      (by rw [← evAt_eq]; exact hx)
    have hstable : (preSt (stateAt (setup p0 i).1 l j) (inpAt l j)).lastStable = false := by
      rcases preSt_stable_val (stateAt (setup p0 i).1 l j) (inpAt l j) with hc | hc
      · rw [hc]
        exact hst.2.1
      · rw [hc]
        exact hraw (inpAt l j) (inpAt_mem l j hj)
    rw [hpayload, hstable]
    rfl
  · intro s i2 hx
    rcases ha : (tick s i2).2.statusAttempt with _ | x
    · exact absurd ha hx
    · rw [tick_statusAttempt, tickMid_eq] at ha
      exact (sched_attempt (preSt s i2) i2 x ha).2
  · intro s i2 h
    unfold preSt at h ⊢
    rcases debounce_dirty_new (applyDrops s i2) (i2.now % U32) i2.pinLow h with hc | hc
    · rw [(applyDrops_fields s i2).2.2.2.1] at hc
      exact Or.inl hc
    · rw [(applyDrops_fields s i2).1] at hc
      exact Or.inr hc

/-- Witness for C7: concrete boot with the switch closed, the boot
publish carries exactly `("garage/door", "closed", retained)`. -/
theorem claim_C7_witness :
    ∃ x, (setup true ⟨0, true, true, true, true, false, false⟩).2.statusAttempt = some x ∧
      x = (TOPIC_STATUS, "closed", true) := by
  refine ⟨(TOPIC_STATUS, "closed", true), ?_, ?_⟩
  · decide
  · exact (claim_C7 true ⟨0, true, true, true, true, false, false⟩ [] (by decide)
      (fun i2 hm => absurd hm (List.not_mem_nil i2))).2.1
      (TOPIC_STATUS, "closed", true) (by decide)

end Garage
